import Mathlib

set_option autoImplicit false

namespace NearMembrane

/-!
A shallow embedding of `src/red.ts` of the near-membrane repository: the
factory `getRedValue` that wraps blue (host) values into red (guest) proxies,
the metadata extraction `getTargetMeta`, the static and dynamic proxy
handlers, and the error boundary of the apply/construct traps.

Object identity is modelled by natural-number ids.  The blue object heap is a
total function from ids to object data; possible introspection failures of
exotic blue objects (revoked proxies, hostile handlers) are modelled by
failure flags on the object data.
-/

/-- JavaScript primitive values (enough structure for the claims). -/
inductive Prim where
  | undefined
  | null
  | boolP (b : Bool)
  | num (n : Int)
  | str (s : String)
  deriving DecidableEq, Repr

/-- Property keys: strings or symbols (symbols numbered). -/
inductive PKey where
  | s (name : String)
  | sym (n : Nat)
  deriving DecidableEq, Repr

/-- Model of Symbol.for(@@lockerLiveValue): the reserved marker whose presence as an
own key selects the dynamic handler. -/
def lockerLiveValueMarkerSymbol : PKey := .sym 0

/-- A property descriptor over values of type `α`: either a data descriptor
`{value, writable, enumerable, configurable}` or an accessor descriptor
`{get, set, enumerable, configurable}`. -/
inductive Desc (α : Type) where
  | data (value : α) (writable enumerable configurable : Bool)
  | accessor (get set : Option α) (enumerable configurable : Bool)
  deriving DecidableEq, Repr

/-- A reference to a blue (host) object: its identity, whether
`typeof` reports function, and whether it is a revoked proxy. -/
structure BlueRef where
  id : Nat
  callable : Bool
  revoked : Bool
  deriving DecidableEq, Repr

/-- A blue (host) value: a primitive, an array (arrays are traversed
eagerly and structurally by the membrane), or an object/function reference. -/
inductive BlueValue where
  | prim (p : Prim)
  | arr (elems : List BlueValue)
  | ref (r : BlueRef)

mutual
def BlueValue.beq : BlueValue → BlueValue → Bool
  | .prim p, .prim q => p = q
  | .arr es, .arr fs => BlueValue.beqList es fs
  | .ref r, .ref r' => r = r'
  | _, _ => false

def BlueValue.beqList : List BlueValue → List BlueValue → Bool
  | [], [] => true
  | a :: as, b :: bs => BlueValue.beq a b && BlueValue.beqList as bs
  | _, _ => false
end

mutual
def BlueValue.beq_iff : ∀ (a b : BlueValue), BlueValue.beq a b = true ↔ a = b
  | .prim p, .prim q => by simp [BlueValue.beq]
  | .arr es, .arr fs => by
      simpa [BlueValue.beq] using BlueValue.beqList_iff es fs
  | .ref r, .ref r' => by simp [BlueValue.beq]
  | .prim _, .arr _ | .prim _, .ref _ | .arr _, .prim _ | .arr _, .ref _
  | .ref _, .prim _ | .ref _, .arr _ => by simp [BlueValue.beq]

def BlueValue.beqList_iff :
    ∀ (as bs : List BlueValue), BlueValue.beqList as bs = true ↔ as = bs
  | [], [] => by simp [BlueValue.beqList]
  | a :: as, b :: bs => by
      simp [BlueValue.beqList, BlueValue.beq_iff a b, BlueValue.beqList_iff as bs]
  | [], _ :: _ | _ :: _, [] => by simp [BlueValue.beqList]
end

instance : DecidableEq BlueValue := fun a b =>
  decidable_of_iff _ (BlueValue.beq_iff a b)

/-- A red (guest) value: a primitive, a freshly allocated red array
(with its own red identity), a membrane proxy, or a native red object
registered in the identity map by the environment bootstrap
(for instance the red realm error constructors). -/
inductive RedValue where
  | prim (p : Prim)
  | arr (id : Nat) (elems : List RedValue)
  | proxy (id : Nat)
  | native (id : Nat) (callable : Bool)

mutual
def RedValue.beq : RedValue → RedValue → Bool
  | .prim p, .prim q => p = q
  | .arr i es, .arr j fs => i = j && RedValue.beqList es fs
  | .proxy i, .proxy j => i = j
  | .native i c, .native j d => i = j && c = d
  | _, _ => false

def RedValue.beqList : List RedValue → List RedValue → Bool
  | [], [] => true
  | a :: as, b :: bs => RedValue.beq a b && RedValue.beqList as bs
  | _, _ => false
end

mutual
def RedValue.beq_iff : ∀ (a b : RedValue), RedValue.beq a b = true ↔ a = b
  | .prim p, .prim q => by simp [RedValue.beq]
  | .arr i es, .arr j fs => by
      simp [RedValue.beq, RedValue.beqList_iff es fs]
  | .proxy i, .proxy j => by simp [RedValue.beq]
  | .native i c, .native j d => by simp [RedValue.beq]
  | .prim _, .arr _ _ | .prim _, .proxy _ | .prim _, .native _ _
  | .arr _ _, .prim _ | .arr _ _, .proxy _ | .arr _ _, .native _ _
  | .proxy _, .prim _ | .proxy _, .arr _ _ | .proxy _, .native _ _
  | .native _ _, .prim _ | .native _ _, .arr _ _ | .native _ _, .proxy _ =>
      by simp [RedValue.beq]

def RedValue.beqList_iff :
    ∀ (as bs : List RedValue), RedValue.beqList as bs = true ↔ as = bs
  | [], [] => by simp [RedValue.beqList]
  | a :: as, b :: bs => by
      simp [RedValue.beqList, RedValue.beq_iff a b, RedValue.beqList_iff as bs]
  | [], _ :: _ | _ :: _, [] => by simp [RedValue.beqList]
end

instance : DecidableEq RedValue := fun a b =>
  decidable_of_iff _ (RedValue.beq_iff a b)

/-- Bookkeeping record for a minted proxy. -/
structure ProxyInfo where
  targetId : Nat
  revoked : Bool
  dynamic : Bool
  deriving DecidableEq, Repr

/-- Association-list lookup keyed by first components. -/
def assocFind {κ α : Type} [DecidableEq κ] (k : κ) : List (κ × α) → Option α
  | [] => none
  | (k', a) :: rest => if k' = k then some a else assocFind k rest

/-- The mutable membrane state: the identity map `blueMap` from blue ids to
their red wrappers, the registry of minted proxies, and the allocator for
fresh red identities. -/
structure MState where
  blueMap : List (Nat × RedValue) := []
  proxies : List (Nat × ProxyInfo) := []
  nextRedId : Nat := 0

/-- Data of one blue object.  Besides the ordinary object state (prototype,
own properties, extensibility, and what `Object.isSealed`/`Object.isFrozen`
report), it carries flags modelling exotic behavior: a step of introspection
that throws, and a `preventExtensions` that is rejected (a proxy manually
created in the sandbox may reject the call). -/
structure BlueObjData where
  proto : BlueValue := .prim .null
  props : List (PKey × Desc BlueValue) := []
  extensible : Bool := true
  sealedFlag : Bool := false
  frozenFlag : Bool := false
  protoThrows : Bool := false
  descThrows : Bool := false
  classifyThrows : Bool := false
  probeThrows : Bool := false
  peRejects : Bool := false

abbrev Heap := Nat → BlueObjData
abbrev Distortion := Nat → Option BlueRef

/-- The metadata captured from a blue target (`TargetMeta` in `red.ts`).
Lifecycle flags default to absent (`false`), as the code only assigns them
when true. -/
structure TargetMeta where
  proto : BlueValue := .prim .null
  descriptors : List (PKey × Desc BlueValue) := []
  isFrozen : Bool := false
  isSealed : Bool := false
  isExtensible : Bool := false
  isBroken : Bool := false
  deriving DecidableEq

/-- `getTargetMeta`: read the prototype, the own-descriptor map, classify the
lifecycle (frozen > sealed > extensible, first match wins), then probe once
more for revocation.  Any failure yields a broken meta with null proto and
empty descriptors; a failure at the final probe keeps the lifecycle flags
already assigned (the catch block only overwrites proto and descriptors). -/
def getTargetMeta (heap : Heap) (t : BlueRef) : TargetMeta :=
  let d := heap t.id
  if t.revoked || d.protoThrows then
    { proto := .prim .null, descriptors := [], isBroken := true }
  else if d.descThrows then
    { proto := .prim .null, descriptors := [], isBroken := true }
  else if d.classifyThrows then
    { proto := .prim .null, descriptors := [], isBroken := true }
  else
    let m : TargetMeta :=
      if d.frozenFlag then
        { proto := d.proto, descriptors := d.props,
          isFrozen := true, isSealed := true, isExtensible := true }
      else if d.sealedFlag then
        { proto := d.proto, descriptors := d.props,
          isSealed := true, isExtensible := true }
      else if d.extensible then
        { proto := d.proto, descriptors := d.props, isExtensible := true }
      else
        { proto := d.proto, descriptors := d.props }
    if d.probeThrows then
      { m with proto := .prim .null, descriptors := [], isBroken := true }
    else m

/-- `getDistortedValue`: consult the distortion map; absent entries leave the
target unchanged. -/
def getDistortedValue (dist : Distortion) (t : BlueRef) : BlueRef :=
  match dist t.id with
  | some t' => t'
  | none => t

/-- The bookkeeping record of a proxy revoked at minting time
(`getRevokedRedProxy`). -/
def revokedInfo (tid : Nat) : ProxyInfo :=
  { targetId := tid, revoked := true, dynamic := false }

/-- `createRedProxy`: apply the distortion, extract the metadata, mint a proxy
(immediately revoked when the metadata is broken, otherwise handled by the
dynamic handler iff the live-value marker is among the captured own keys), and
register it in the identity map under the distorted target.
The registration `setRefMapEntries` is not part of `red.ts`; it is modelled
from the spec: the broker identity map associates a host value with its
guest wrapper. -/
def createRedProxy (dist : Distortion) (heap : Heap) (s : MState) (t : BlueRef) :
    RedValue × MState :=
  let t' := getDistortedValue dist t
  let meta := getTargetMeta heap t'
  let pid := s.nextRedId
  let info : ProxyInfo :=
    if meta.isBroken then
      revokedInfo t'.id
    else
      { targetId := t'.id, revoked := false,
        dynamic := (assocFind lockerLiveValueMarkerSymbol meta.descriptors).isSome }
  (RedValue.proxy pid,
    { blueMap := (t'.id, RedValue.proxy pid) :: s.blueMap,
      proxies := (pid, info) :: s.proxies,
      nextRedId := pid + 1 })

mutual
/-- `getRedValue`: primitives pass through; functions are identity-preserved
via the map; a revoked non-callable target skips the array check (which
throws) and goes straight to proxy creation; arrays are converted
element-wise into a fresh red array; other objects are identity-preserved. -/
def getRedValue (dist : Distortion) (heap : Heap) (s : MState) :
    BlueValue → RedValue × MState
  | .prim p => (.prim p, s)
  | .ref t =>
    if t.callable then
      match assocFind t.id s.blueMap with
      | some r => (r, s)
      | none => createRedProxy dist heap s t
    else if t.revoked then
      createRedProxy dist heap s t
    else
      match assocFind t.id s.blueMap with
      | some r => (r, s)
      | none => createRedProxy dist heap s t
  | .arr elems =>
    let p := getRedList dist heap s elems
    (.arr p.2.nextRedId p.1, { p.2 with nextRedId := p.2.nextRedId + 1 })

/-- Element-wise conversion of a blue array's contents, threading the state. -/
def getRedList (dist : Distortion) (heap : Heap) (s : MState) :
    List BlueValue → List RedValue × MState
  | [] => ([], s)
  | b :: rest =>
    let p := getRedValue dist heap s b
    let q := getRedList dist heap p.2 rest
    (p.1 :: q.1, q.2)
end

/-! ## Shadow targets and descriptor installation -/

/-- The Shadow Structure backing a wrapper: a plain red object with a
prototype slot, an ordered own-property table, and an extensibility bit. -/
structure Shadow where
  proto : RedValue := .prim .null
  props : List (PKey × Desc RedValue) := []
  extensible : Bool := true
  deriving DecidableEq

/-- Replace the entry for `k` in place, or append it. -/
def assocUpdate {κ α : Type} [DecidableEq κ] (k : κ) (a : α) :
    List (κ × α) → List (κ × α)
  | [] => [(k, a)]
  | (k', a') :: rest =>
    if k' = k then (k, a) :: rest else (k', a') :: assocUpdate k a rest

/-- Remove the entry for `k`. -/
def assocRemove {κ α : Type} [DecidableEq κ] (k : κ) :
    List (κ × α) → List (κ × α)
  | [] => []
  | (k', a') :: rest =>
    if k' = k then rest else (k', a') :: assocRemove k rest

def descConfigurable {α : Type} : Desc α → Bool
  | .data _ _ _ c => c
  | .accessor _ _ _ c => c

/-- Check of hasOwnProperty(desc, "writable") with desc.writable true:
only a data descriptor has the field at all. -/
def descWritableTrue {α : Type} : Desc α → Bool
  | .data _ w _ _ => w
  | .accessor _ _ _ _ => false

/-- `desc.value`: `undefined` when the descriptor is an accessor. -/
def descValueField : Desc RedValue → RedValue
  | .data v _ _ _ => v
  | .accessor _ _ _ _ => .prim .undefined

/-- `installDescriptorIntoShadowTarget`: overwrite an existing configurable
descriptor wholesale; else, when the existing one is writable, assign only its
stored value; else leave it untouched.  An absent key is defined directly
(`Reflect.defineProperty`, silently a no-op on a non-extensible shadow). -/
def installDescriptorIntoShadowTarget (sh : Shadow) (k : PKey)
    (orig : Desc RedValue) : Shadow :=
  match assocFind k sh.props with
  | some existing =>
    if descConfigurable existing then
      { sh with props := assocUpdate k orig sh.props }
    else
      match existing with
      | .data _ w e c =>
        if w then
          { sh with props := assocUpdate k (.data (descValueField orig) w e c) sh.props }
        else sh
      | .accessor _ _ _ _ => sh
  | none =>
    if sh.extensible then { sh with props := assocUpdate k orig sh.props } else sh

/-- Convert an optional accessor slot (`undefined` stays absent). -/
def getRedOpt (dist : Distortion) (heap : Heap) (s : MState) :
    Option BlueValue → Option RedValue × MState
  | none => (none, s)
  | some v =>
    let p := getRedValue dist heap s v
    (some p.1, p.2)

/-- `getRedDescriptor`: convert a blue descriptor into a red one; a data
descriptor converts its value, an accessor descriptor converts its setter and
then its getter (the source handles `set` before `get`). -/
def getRedDescriptor (dist : Distortion) (heap : Heap) (s : MState) :
    Desc BlueValue → Desc RedValue × MState
  | .data v w e c =>
    let p := getRedValue dist heap s v
    (.data p.1 w e c, p.2)
  | .accessor g st e c =>
    let ps := getRedOpt dist heap s st
    let pg := getRedOpt dist heap ps.2 g
    (.accessor pg.1 ps.1 e c, pg.2)

/-- `copyRedOwnDescriptors`: convert and install every captured descriptor. -/
def copyRedOwnDescriptors (dist : Distortion) (heap : Heap) (s : MState)
    (sh : Shadow) : List (PKey × Desc BlueValue) → Shadow × MState
  | [] => (sh, s)
  | (k, bd) :: rest =>
    let p := getRedDescriptor dist heap s bd
    copyRedOwnDescriptors dist heap p.2 (installDescriptorIntoShadowTarget sh k p.1) rest

def freezeDesc : Desc RedValue → Desc RedValue
  | .data v _ e _ => .data v false e false
  | .accessor g st e _ => .accessor g st e false

def sealDesc : Desc RedValue → Desc RedValue
  | .data v w e _ => .data v w e false
  | .accessor g st e _ => .accessor g st e false

/-- `Object.freeze` on the shadow. -/
def freezeShadow (sh : Shadow) : Shadow :=
  { proto := sh.proto, props := sh.props.map (fun p => (p.1, freezeDesc p.2)),
    extensible := false }

/-- `Object.seal` on the shadow. -/
def sealShadow (sh : Shadow) : Shadow :=
  { proto := sh.proto, props := sh.props.map (fun p => (p.1, sealDesc p.2)),
    extensible := false }

/-! ## The static handler -/

/-- `RedStaticProxyHandler`: the blue target, the metadata captured at
creation, and whether `initialize` has already been replaced by the no-op. -/
structure StaticHandler where
  target : BlueRef
  meta : TargetMeta
  initialized : Bool := false
  deriving DecidableEq

/-- Mint a static handler for a blue target (metadata captured now). -/
def mintStaticHandler (heap : Heap) (t : BlueRef) : StaticHandler :=
  { target := t, meta := getTargetMeta heap t }

/-- `RedStaticProxyHandler.initialize`: a no-op once run (in the source the
method is replaced by `noop` before the body executes, so a re-entrant
trigger already sees the no-op); otherwise it resolves the red prototype,
copies the captured descriptors, and applies the captured lifecycle. -/
def staticInit (dist : Distortion) (heap : Heap) (h : StaticHandler)
    (sh : Shadow) (s : MState) : StaticHandler × Shadow × MState :=
  if h.initialized then (h, sh, s)
  else
    let h' := { h with initialized := true }
    let pp := getRedValue dist heap s h.meta.proto
    let sh1 := { sh with proto := pp.1 }
    let q := copyRedOwnDescriptors dist heap pp.2 sh1 h.meta.descriptors
    let sh2 :=
      if h.meta.isFrozen then freezeShadow q.1
      else if h.meta.isSealed then sealShadow q.1
      else if !h.meta.isExtensible then { q.1 with extensible := false }
      else q.1
    (h', sh2, q.2)

/-- The fundamental object operations the static handler answers from the
shadow (call/construct excluded: those forward to the blue target). -/
inductive MemOp where
  | get (k : PKey)
  | set (k : PKey) (v : RedValue)
  | del (k : PKey)
  | has (k : PKey)
  | ownKeysOp
  | getOwnDesc (k : PKey)
  | getProtoOp
  | setProtoOp (p : RedValue)
  | isExtOp
  | preventExtOp
  | defineProp (k : PKey) (d : Desc RedValue)
  deriving DecidableEq

/-- The outcome of a fundamental operation on a plain object, with explicit
escapes for the cases that continue along the prototype chain or invoke an
accessor. -/
inductive OpResult where
  | valR (v : RedValue)
  | accessorR (f : Option RedValue)
  | chainR (proto : RedValue)
  | boolR (b : Bool)
  | keysR (ks : List PKey)
  | descR (d : Option (Desc RedValue))
  | throwR
  deriving DecidableEq

/-- Compatibility of a complete new descriptor with an existing
non-configurable one (the cases of ValidateAndApplyPropertyDescriptor the
membrane can hit): identical, or a data-to-data change under a writable
existing descriptor that does not resurrect configurability or change
enumerability. -/
def descCompatible (existing d : Desc RedValue) : Bool :=
  (existing = d) ||
    (match existing, d with
     | .data _ w e _, .data _ _ e' c' => w && (e = e') && !c'
     | _, _ => false)

/-- The ordinary (ECMAScript) semantics of each fundamental operation against
a plain object: this is what `Reflect.*`/`Object.*` do to the shadow. -/
def shadowOp (sh : Shadow) : MemOp → OpResult × Shadow
  | .get k =>
    match assocFind k sh.props with
    | some (.data v _ _ _) => (.valR v, sh)
    | some (.accessor g _ _ _) => (.accessorR g, sh)
    | none => (.chainR sh.proto, sh)
  | .set k v =>
    match assocFind k sh.props with
    | some (.data _ w _ _) =>
      if w then
        (.boolR true,
         { sh with props := assocUpdate k (.data v w true true) sh.props })
      else (.boolR false, sh)
    | some (.accessor _ st _ _) => (.accessorR st, sh)
    | none =>
      if sh.proto = .prim .null then
        if sh.extensible then
          (.boolR true, { sh with props := assocUpdate k (.data v true true true) sh.props })
        else (.boolR false, sh)
      else (.chainR sh.proto, sh)
  | .del k =>
    match assocFind k sh.props with
    | some d =>
      if descConfigurable d then (.boolR true, { sh with props := assocRemove k sh.props })
      else (.boolR false, sh)
    | none => (.boolR true, sh)
  | .has k =>
    match assocFind k sh.props with
    | some _ => (.boolR true, sh)
    | none => (.chainR sh.proto, sh)
  | .ownKeysOp => (.keysR (sh.props.map Prod.fst), sh)
  | .getOwnDesc k => (.descR (assocFind k sh.props), sh)
  | .getProtoOp => (.valR sh.proto, sh)
  | .setProtoOp p =>
    if sh.extensible then (.boolR true, { sh with proto := p })
    else (.boolR (decide (p = sh.proto)), sh)
  | .isExtOp => (.boolR sh.extensible, sh)
  | .preventExtOp => (.boolR true, { sh with extensible := false })
  | .defineProp k d =>
    match assocFind k sh.props with
    | some existing =>
      if descConfigurable existing then
        (.boolR true, { sh with props := assocUpdate k d sh.props })
      else if descCompatible existing d then
        (.boolR true, { sh with props := assocUpdate k d sh.props })
      else (.throwR, sh)
    | none =>
      if sh.extensible then (.boolR true, { sh with props := assocUpdate k d sh.props })
      else (.throwR, sh)

/-- A static-handler trap: run `initialize` first, then answer the operation
against the shadow only. -/
def staticHandlerOp (dist : Distortion) (heap : Heap)
    (st : StaticHandler × Shadow × MState) (op : MemOp) :
    OpResult × (StaticHandler × Shadow × MState) :=
  let t := staticInit dist heap st.1 st.2.1 st.2.2
  let r := shadowOp t.2.1 op
  (r.1, (t.1, r.2, t.2.2))

/-! ## The dynamic handler: lock-down, extensibility, prevent-extensions -/

/-- `copyBlueDescriptorIntoShadowTarget` uses the raw `Reflect.defineProperty`
on the shadow: replace a configurable or compatibly-changeable descriptor,
add an absent key while the shadow is extensible, and silently do nothing
otherwise. -/
def shadowDefineRaw (sh : Shadow) (k : PKey) (d : Desc RedValue) : Shadow :=
  match assocFind k sh.props with
  | some existing =>
    if descConfigurable existing || descCompatible existing d then
      { sh with props := assocUpdate k d sh.props }
    else sh
  | none =>
    if sh.extensible then { sh with props := assocUpdate k d sh.props } else sh

/-- `copyBlueDescriptorIntoShadowTarget`: read the live blue descriptor; when
present, convert it and define it on the shadow. -/
def copyBlueDescriptorIntoShadowTarget (dist : Distortion) (heap : Heap)
    (s : MState) (sh : Shadow) (tid : Nat) (k : PKey) : Shadow × MState :=
  match assocFind k (heap tid).props with
  | none => (sh, s)
  | some bd =>
    let p := getRedDescriptor dist heap s bd
    (shadowDefineRaw sh k p.1, p.2)

/-- `lockShadowTarget`: copy every current own key of the blue target onto the
shadow, then prevent extensions of the shadow. -/
def lockShadowTarget (dist : Distortion) (heap : Heap) (s : MState)
    (sh : Shadow) (tid : Nat) : Shadow × MState :=
  let q := ((heap tid).props.map Prod.fst).foldl
    (fun (acc : Shadow × MState) k =>
      copyBlueDescriptorIntoShadowTarget dist heap acc.2 acc.1 tid k)
    (sh, s)
  ({ q.1 with extensible := false }, q.2)

/-- `RedDynamicProxyHandler.isExtensible`: short-circuit once the shadow is
locked; otherwise inspect the live target, locking the shadow down when the
target is non-extensible. -/
def dynIsExtensible (dist : Distortion) (heap : Heap) (s : MState)
    (sh : Shadow) (tid : Nat) : Bool × Shadow × MState :=
  if !sh.extensible then (false, sh, s)
  else if !(heap tid).extensible then
    let q := lockShadowTarget dist heap s sh tid
    (false, q.1, q.2)
  else (true, sh, s)

/-- `Reflect.preventExtensions` on the live blue target: a target that rejects
the call (a proxy minted in the sandbox may) is left unchanged. -/
def bluePreventExtensions (heap : Heap) (tid : Nat) : Bool × Heap :=
  let d := heap tid
  if d.peRejects then (false, heap)
  else (true, fun i => if i = tid then { d with extensible := false } else heap i)

/-- `RedDynamicProxyHandler.preventExtensions`: when the shadow is still
extensible, attempt `preventExtensions` on the live target, lock the shadow
down whenever the target ends up non-extensible, and report the success of the hook call itself; when the shadow is already locked, return true immediately. -/
def dynPreventExtensions (dist : Distortion) (heap : Heap) (s : MState)
    (sh : Shadow) (tid : Nat) : Bool × Shadow × MState × Heap :=
  if sh.extensible then
    let p := bluePreventExtensions heap tid
    if !p.1 then
      if !(p.2 tid).extensible then
        let q := lockShadowTarget dist p.2 s sh tid
        (false, q.1, q.2, p.2)
      else (false, sh, s, p.2)
    else
      let q := lockShadowTarget dist p.2 s sh tid
      (true, q.1, q.2, p.2)
  else (true, sh, s, heap)

/-! ## The error boundary: apply/construct traps -/

/-- A host-side failure: the `message` of the thrown blue error and the identity
of its `constructor` (a blue function). -/
structure BlueError where
  message : String
  ctorId : Nat
  deriving DecidableEq

/-- A guest-realm error: constructed from the red counterpart of the blue
constructor, the generic `new Error(message)` fallback, or the bare
`TypeError()` of the construct trap. -/
inductive RedError where
  | fromCtor (redCtorId : Nat) (message : String)
  | generic (message : String)
  | typeErr
  deriving DecidableEq

def RedError.message : RedError → String
  | .fromCtor _ m => m
  | .generic m => m
  | .typeErr => ""

/-- A value thrown across the membrane: either a raw blue (host) error or a
red (guest) error.  The traps must only ever throw the red kind. -/
inductive Thrown where
  | blue (e : BlueError)
  | red (e : RedError)
  deriving DecidableEq

/-- Modelled from the spec: the Membrane Broker method `getRedRef`, the lookup of
the guest counterpart of a host value in the identity map (the broker itself
is outside `red.ts`). -/
def getRedRef (s : MState) (blueId : Nat) : Option RedValue :=
  assocFind blueId s.blueMap

/-- `construct(redErrorConstructor, [message])`: constructing through the
looked-up red reference succeeds only when it is a native red constructor
(the error constructors of the red realm registered during bootstrap);
anything else makes the construction throw. -/
def constructRedError : RedValue → String → Option RedError
  | .native i true, msg => some (.fromCtor i msg)
  | _, _ => none

/-- The catch block of the apply/construct traps: look the blue constructor
up in the identity map and construct the red error from the message alone;
any failure falls back to `new Error(message)`. -/
def normalizeBlueError (s : MState) (e : BlueError) : RedError :=
  match getRedRef s e.ctorId with
  | some redCtor =>
    match constructRedError redCtor e.message with
    | some re => re
    | none => .generic e.message
  | none => .generic e.message

/-- The host-supplied marshaling hooks (`apply`/`construct`), which may fail
with a blue error. -/
structure MarshalHooks where
  applyHook : BlueRef → BlueValue → List BlueValue → Except BlueError BlueValue
  constructHook : BlueRef → List BlueValue → BlueValue → Except BlueError BlueValue

/-- Trap `redProxyApplyTrap`, parametric in the broker red-to-blue conversion `g`
(modelled from the spec: `getBlueValue` lives in the broker, not `red.ts`):
convert the receiver and arguments, call the blue apply hook, and convert the
result; normalize any blue failure into a freshly built red error. -/
def redProxyApplyTrap (dist : Distortion) (heap : Heap) (s : MState)
    (hooks : MarshalHooks) (g : RedValue → BlueValue) (blueTarget : BlueRef)
    (redThisArg : RedValue) (redArgs : List RedValue) :
    Except Thrown (RedValue × MState) :=
  match hooks.applyHook blueTarget (g redThisArg) (redArgs.map g) with
  | .ok blue => .ok (getRedValue dist heap s blue)
  | .error e => .error (.red (normalizeBlueError s e))

/-- `redProxyConstructTrap`: an `undefined` new-target throws a red
`TypeError` before anything else; otherwise convert, call the blue construct
hook, and convert back, normalizing any blue failure. -/
def redProxyConstructTrap (dist : Distortion) (heap : Heap) (s : MState)
    (hooks : MarshalHooks) (g : RedValue → BlueValue) (blueCtor : BlueRef)
    (redArgs : List RedValue) (redNewTarget : RedValue) :
    Except Thrown (RedValue × MState) :=
  if redNewTarget = .prim .undefined then .error (.red .typeErr)
  else
    match hooks.constructHook blueCtor (redArgs.map g) (g redNewTarget) with
    | .ok blue => .ok (getRedValue dist heap s blue)
    | .error e => .error (.red (normalizeBlueError s e))

/-- `RedStaticProxyHandler.construct`: run `initialize`, then the trap. -/
def staticConstruct (dist : Distortion) (heap : Heap)
    (st : StaticHandler × Shadow × MState) (hooks : MarshalHooks)
    (g : RedValue → BlueValue) (redArgs : List RedValue)
    (redNewTarget : RedValue) :
    Except Thrown (RedValue × MState) × (StaticHandler × Shadow × MState) :=
  let t := staticInit dist heap st.1 st.2.1 st.2.2
  (redProxyConstructTrap dist heap t.2.2 hooks g st.1.target redArgs redNewTarget, t)

/-- `RedDynamicProxyHandler.construct`: straight to the trap. -/
def dynConstruct (dist : Distortion) (heap : Heap) (s : MState)
    (hooks : MarshalHooks) (g : RedValue → BlueValue) (target : BlueRef)
    (redArgs : List RedValue) (redNewTarget : RedValue) :
    Except Thrown (RedValue × MState) :=
  redProxyConstructTrap dist heap s hooks g target redArgs redNewTarget

/-! ## Revoked proxies -/

/-- The ECMAScript revocation gate: every fundamental operation on a revoked
proxy throws a `TypeError` before any trap runs; on a live proxy the trap
runs. -/
def proxyOperate {α : Type} (info : ProxyInfo) (runTrap : Unit → α) :
    Except RedError α :=
  if info.revoked then .error .typeErr else .ok (runTrap ())

/-! ## Notions used to state the identity claims -/

mutual
/-- A blue value is live and undistorted when every object reference in it
(transitively through arrays) is not a revoked proxy and is not remapped by
the distortion table to a different target. -/
def liveUndistorted (dist : Distortion) : BlueValue → Bool
  | .prim _ => true
  | .ref t => !t.revoked && decide (getDistortedValue dist t = t)
  | .arr es => liveUndistortedList dist es

def liveUndistortedList (dist : Distortion) : List BlueValue → Bool
  | [] => true
  | b :: rest => liveUndistorted dist b && liveUndistortedList dist rest
end

mutual
/-- Structural equality of red values: primitives by value, proxies and
native objects by identity, arrays element-wise (their own fresh identities
ignored). -/
def structEq : RedValue → RedValue → Bool
  | .prim p, .prim q => decide (p = q)
  | .arr _ es, .arr _ fs => structEqList es fs
  | .proxy i, .proxy j => decide (i = j)
  | .native i c, .native j d => decide (i = j) && decide (c = d)
  | _, _ => false

def structEqList : List RedValue → List RedValue → Bool
  | [], [] => true
  | a :: as, b :: bs => structEq a b && structEqList as bs
  | _, _ => false
end

/-- State extension: every identity-map entry of `s` is still present,
unchanged, in `s2`. -/
def MapExt (s s2 : MState) : Prop :=
  ∀ id r, assocFind id s.blueMap = some r → assocFind id s2.blueMap = some r

/-! # Theorems

General lemmas first, then one theorem per claim (with its witness or
counterexample where required). -/

theorem assocFind_update_self {κ α : Type} [DecidableEq κ] (k : κ) (a : α) :
    ∀ l : List (κ × α), assocFind k (assocUpdate k a l) = some a
  | [] => by simp [assocUpdate, assocFind]
  | (k', a') :: rest => by
    by_cases h : k' = k <;>
      simp [assocUpdate, assocFind, h, assocFind_update_self k a rest]

theorem assocFind_update_ne {κ α : Type} [DecidableEq κ] (k k' : κ) (a : α)
    (h : k' ≠ k) : ∀ l : List (κ × α),
      assocFind k' (assocUpdate k a l) = assocFind k' l
  | [] => by simp [assocUpdate, assocFind, Ne.symm h]
  | (k'', a'') :: rest => by
    by_cases h2 : k'' = k
    · subst h2
      simp [assocUpdate, assocFind, Ne.symm h]
    · simp [assocUpdate, assocFind, h2, assocFind_update_ne k k' a h rest]

theorem assocFind_update_isSome {κ α : Type} [DecidableEq κ] (k k' : κ) (a : α)
    (l : List (κ × α)) :
    (assocFind k' (assocUpdate k a l)).isSome ↔
      (k' = k ∨ (assocFind k' l).isSome) := by
  by_cases h : k' = k
  · subst h; simp [assocFind_update_self]
  · simp [assocFind_update_ne k k' a h l, h]

theorem assocFind_isSome_iff_mem {κ α : Type} [DecidableEq κ] (k : κ) :
    ∀ l : List (κ × α), (assocFind k l).isSome ↔ k ∈ l.map Prod.fst
  | [] => by simp [assocFind]
  | (k', a') :: rest => by
    by_cases h : k' = k
    · subst h; simp [assocFind]
    · simp [assocFind, h, Ne.symm h, assocFind_isSome_iff_mem k rest]

theorem mapExt_refl (s : MState) : MapExt s s := fun _ _ h => h

theorem mapExt_trans {s1 s2 s3 : MState} (h1 : MapExt s1 s2)
    (h2 : MapExt s2 s3) : MapExt s1 s3 :=
  fun i r h => h2 i r (h1 i r h)

mutual
theorem structEq_refl : ∀ r : RedValue, structEq r r = true
  | .prim _ => by simp [structEq]
  | .arr _ es => by simpa [structEq] using structEqList_refl es
  | .proxy _ => by simp [structEq]
  | .native _ _ => by simp [structEq]

theorem structEqList_refl : ∀ l : List RedValue, structEqList l l = true
  | [] => by simp [structEqList]
  | a :: as => by simp [structEqList, structEq_refl a, structEqList_refl as]
end

/-- C9: for every static wrapper the snapshot runs at most once: any first
trap leaves the handler marked, a marked handler makes the transition a no-op
(the source replaces the method by a no-op before the body runs, so a
re-entrant trigger from inside the body already sees the no-op), and the
whole transition is idempotent: re-running it re-applies neither the
descriptor copy nor the lifecycle lock. -/
theorem staticInit_at_most_once (dist : Distortion) (heap : Heap)
    (h : StaticHandler) (sh : Shadow) (s : MState) :
    ((staticInit dist heap h sh s).1.initialized = true) ∧
    (h.initialized = true → staticInit dist heap h sh s = (h, sh, s)) ∧
    (staticInit dist heap (staticInit dist heap h sh s).1
        (staticInit dist heap h sh s).2.1 (staticInit dist heap h sh s).2.2 =
      staticInit dist heap h sh s) := by
  cases hi : h.initialized <;> simp [staticInit, hi]

/-- Witness for C9 at a concrete marked handler. -/
theorem staticInit_at_most_once_witness :
    staticInit (fun _ => none) (fun _ => ({} : BlueObjData))
        { target := ⟨0, false, false⟩, meta := {}, initialized := true } {} {} =
      ({ target := ⟨0, false, false⟩, meta := {}, initialized := true }, {}, {}) :=
  (staticInit_at_most_once (fun _ => none) (fun _ => ({} : BlueObjData))
      { target := ⟨0, false, false⟩, meta := {}, initialized := true } {} {}).2.1 rfl

/-- C10: constructing through a wrapper with an undefined new-target throws a
guest-realm TypeError: the construct trap, the static handler construct and
the dynamic handler construct all fail that way for every marshaling hook and
every conversion function, so the blue construct hook is never invoked. -/
theorem construct_undef_newTarget (dist : Distortion) (heap : Heap)
    (s : MState) (hooks : MarshalHooks) (g : RedValue → BlueValue)
    (ctor : BlueRef) (args : List RedValue)
    (st : StaticHandler × Shadow × MState) :
    redProxyConstructTrap dist heap s hooks g ctor args (.prim .undefined) =
        .error (.red .typeErr) ∧
    (staticConstruct dist heap st hooks g args (.prim .undefined)).1 =
        .error (.red .typeErr) ∧
    dynConstruct dist heap s hooks g ctor args (.prim .undefined) =
        .error (.red .typeErr) := by
  refine ⟨?_, ?_, ?_⟩ <;>
    simp [redProxyConstructTrap, staticConstruct, dynConstruct]

/-- C7: the descriptor install policy of the static snapshot: a configurable
existing shadow attribute is overwritten wholesale; a non-configurable but
writable one gets only its stored value replaced (by the value field of the
captured descriptor); a non-configurable non-writable one is left untouched;
an absent key gets the captured descriptor installed directly. -/
theorem installDescriptor_policy (sh : Shadow) (k : PKey)
    (orig : Desc RedValue) :
    (∀ e, assocFind k sh.props = some e →
      (descConfigurable e = true →
        installDescriptorIntoShadowTarget sh k orig =
          { sh with props := assocUpdate k orig sh.props }) ∧
      (descConfigurable e = false → descWritableTrue e = true →
        ∃ v en, e = .data v true en false ∧
          installDescriptorIntoShadowTarget sh k orig =
            { sh with props :=
                assocUpdate k (.data (descValueField orig) true en false) sh.props }) ∧
      (descConfigurable e = false → descWritableTrue e = false →
        installDescriptorIntoShadowTarget sh k orig = sh)) ∧
    (assocFind k sh.props = none → sh.extensible = true →
      installDescriptorIntoShadowTarget sh k orig =
        { sh with props := assocUpdate k orig sh.props }) := by
  constructor
  · intro e he
    refine ⟨?_, ?_, ?_⟩
    · intro hc
      simp [installDescriptorIntoShadowTarget, he, hc]
    · intro hc hw
      cases e with
      | data v w en c =>
        cases w
        · simp [descWritableTrue] at hw
        · cases c
          · exact ⟨v, en, rfl,
              by simp [installDescriptorIntoShadowTarget, he, descConfigurable]⟩
          · simp [descConfigurable] at hc
      | accessor gt st en c => simp [descWritableTrue] at hw
    · intro hc hw
      cases e with
      | data v w en c =>
        cases w
        · cases c
          · simp [installDescriptorIntoShadowTarget, he, descConfigurable]
          · simp [descConfigurable] at hc
        · simp [descWritableTrue] at hw
      | accessor gt st en c =>
        cases c
        · simp [installDescriptorIntoShadowTarget, he, descConfigurable]
        · simp [descConfigurable] at hc
  · intro hn he
    simp [installDescriptorIntoShadowTarget, hn, he]

/-- Witness for C7: installing over a non-configurable writable data slot
replaces only the stored value, at a concrete shadow. -/
theorem installDescriptor_policy_witness :
    ∃ v en, (Desc.data (RedValue.prim (.num 1)) true true false : Desc RedValue)
        = .data v true en false ∧
      installDescriptorIntoShadowTarget
          { props := [(.s "x", .data (.prim (.num 1)) true true false)] } (.s "x")
          (.data (.prim (.num 2)) true true true) =
        { props := assocUpdate (PKey.s "x")
            (Desc.data (descValueField (.data (.prim (.num 2)) true true true)) true en false)
            [(.s "x", .data (.prim (.num 1)) true true false)] } :=
  ((installDescriptor_policy
      { props := [(.s "x", .data (.prim (.num 1)) true true false)] } (.s "x")
      (.data (.prim (.num 2)) true true true)).1
    (.data (.prim (.num 1)) true true false) rfl).2.1 rfl rfl

/-- C3: once a static wrapper is initialized, every intercepted fundamental
operation (read, write, delete, has, enumerate, attribute query/definition,
parent get/set, extensibility query/change) is answered from the Shadow
Structure alone: the result is independent of the blue heap (and of the
distortion table), so later host mutation is unobservable. -/
theorem staticOps_snapshot_isolated (dist1 dist2 : Distortion)
    (heap1 heap2 : Heap) (h : StaticHandler) (sh : Shadow) (s : MState)
    (op : MemOp) (hinit : h.initialized = true) :
    staticHandlerOp dist1 heap1 (h, sh, s) op =
      staticHandlerOp dist2 heap2 (h, sh, s) op := by
  simp [staticHandlerOp, staticInit, hinit]

def snapshotHeap : Heap := fun _ =>
  { props := [(.s "x", .data (.prim (.num 1)) true true true)] }

def mutatedHeap : Heap := fun _ =>
  { props := [(.s "x", .data (.prim (.num 2)) true true true)] }

def snapshotAfterFirstRead : StaticHandler × Shadow × MState :=
  (staticHandlerOp (fun _ => none) snapshotHeap
    (mintStaticHandler snapshotHeap ⟨0, false, false⟩, {}, {}) (.get (.s "x"))).2

/-- Witness for C3, the scenario of the spec: wrap the host object with x = 1,
read x (which runs the snapshot), mutate the host x to 2; the wrapper still
answers from the snapshot, reporting 1. -/
theorem staticOps_snapshot_isolated_witness :
    snapshotAfterFirstRead.1.initialized = true ∧
    staticHandlerOp (fun _ => none) mutatedHeap snapshotAfterFirstRead
        (.get (.s "x")) =
      staticHandlerOp (fun _ => none) snapshotHeap snapshotAfterFirstRead
        (.get (.s "x")) ∧
    (staticHandlerOp (fun _ => none) mutatedHeap snapshotAfterFirstRead
        (.get (.s "x"))).1 = .valR (.prim (.num 1)) :=
  ⟨rfl,
   staticOps_snapshot_isolated (fun _ => none) (fun _ => none) mutatedHeap
     snapshotHeap snapshotAfterFirstRead.1 snapshotAfterFirstRead.2.1
     snapshotAfterFirstRead.2.2 (.get (.s "x")) rfl,
   rfl⟩

/-- C5 counterexample: on a dynamic wrapper whose Shadow Structure is already
locked, the prevent-extensions trap reports success immediately: it does not
attempt the host-side call (the heap is returned untouched), although a
host-side prevent-extensions on this target fails. -/
theorem dynPreventExtensions_cex :
    (dynPreventExtensions (fun _ => none)
        (fun _ => { extensible := false, peRejects := true }) {}
        { extensible := false } 0).1 = true ∧
    (dynPreventExtensions (fun _ => none)
        (fun _ => { extensible := false, peRejects := true }) {}
        { extensible := false } 0).2.2.2 =
      (fun _ => { extensible := false, peRejects := true }) ∧
    (bluePreventExtensions (fun _ => { extensible := false, peRejects := true })
        0).1 = false :=
  ⟨rfl, rfl, rfl⟩

/-- C5 (amended): while the Shadow Structure is still extensible, the dynamic
prevent-extensions trap attempts prevent-extensions on the live host value,
performs the lock-down walk whenever the host value ends up non-extensible
(whether or not the host-side call succeeded), and reports success iff the
host-side call itself succeeded; once the Shadow Structure is locked it
returns true immediately, leaving host, shadow and state untouched. -/
theorem dynPreventExtensions_spec (dist : Distortion) (heap : Heap)
    (s : MState) (sh : Shadow) (tid : Nat) :
    (sh.extensible = true →
      (dynPreventExtensions dist heap s sh tid).1 =
        (bluePreventExtensions heap tid).1 ∧
      (dynPreventExtensions dist heap s sh tid).2.2.2 =
        (bluePreventExtensions heap tid).2 ∧
      (((bluePreventExtensions heap tid).2 tid).extensible = false →
        (dynPreventExtensions dist heap s sh tid).2.1 =
          (lockShadowTarget dist (bluePreventExtensions heap tid).2 s sh tid).1 ∧
        (dynPreventExtensions dist heap s sh tid).2.1.extensible = false) ∧
      (((bluePreventExtensions heap tid).2 tid).extensible = true →
        (dynPreventExtensions dist heap s sh tid).2.1 = sh)) ∧
    (sh.extensible = false →
      dynPreventExtensions dist heap s sh tid = (true, sh, s, heap)) := by
  constructor
  · intro hext
    by_cases hpe : (heap tid).peRejects
    · by_cases hte : (heap tid).extensible <;>
        simp [dynPreventExtensions, bluePreventExtensions, lockShadowTarget,
          hext, hpe, hte]
    · simp [dynPreventExtensions, bluePreventExtensions, lockShadowTarget,
        hext, hpe]
  · intro hext
    simp [dynPreventExtensions, hext]

/-- Witness for C5 (amended), at a concrete extensible shadow over an
ordinary extensible host: the call reports success and locks the shadow. -/
theorem dynPreventExtensions_spec_witness :
    (dynPreventExtensions (fun _ => none) (fun _ => ({} : BlueObjData)) {}
        {} 0).1 = (bluePreventExtensions (fun _ => ({} : BlueObjData)) 0).1 ∧
    (dynPreventExtensions (fun _ => none) (fun _ => ({} : BlueObjData)) {}
        {} 0).2.1 =
      (lockShadowTarget (fun _ => none)
        (bluePreventExtensions (fun _ => ({} : BlueObjData)) 0).2 {} {} 0).1 ∧
    (dynPreventExtensions (fun _ => none) (fun _ => ({} : BlueObjData)) {}
        {} 0).2.1.extensible = false := by
  have h := (dynPreventExtensions_spec (fun _ => none)
    (fun _ => ({} : BlueObjData)) {} {} 0).1 rfl
  exact ⟨h.1, (h.2.2.1 rfl).1, (h.2.2.1 rfl).2⟩

theorem constructRedError_message (rc : RedValue) (m : String) (re : RedError)
    (h : constructRedError rc m = some re) : re.message = m := by
  cases rc with
  | prim p => simp [constructRedError] at h
  | arr i es => simp [constructRedError] at h
  | proxy i => simp [constructRedError] at h
  | native i c =>
    cases c
    · simp [constructRedError] at h
    · simp [constructRedError] at h
      simp [← h, RedError.message]

theorem normalizeBlueError_message (s : MState) (e : BlueError) :
    (normalizeBlueError s e).message = e.message := by
  unfold normalizeBlueError
  cases hr : getRedRef s e.ctorId with
  | none => simp [RedError.message]
  | some rc =>
    cases hc : constructRedError rc e.message with
    | none => simp [hc, RedError.message]
    | some re =>
      simp only [hc]
      exact constructRedError_message rc e.message re hc

/-- C2: when the blue apply/construct hook fails, the trap throws the
normalized red error: its message is the message of the blue failure, it is
built through the red counterpart of the blue constructor exactly when the
identity-map lookup and the construction succeed and is the generic red error
otherwise, and no trap outcome ever carries the blue error itself across. -/
theorem errorBoundary_normalizes (dist : Distortion) (heap : Heap)
    (s : MState) (hooks : MarshalHooks) (g : RedValue → BlueValue)
    (t : BlueRef) (this : RedValue) (args : List RedValue) (ctor : BlueRef)
    (cargs : List RedValue) (nt : RedValue) (e₁ e₂ : BlueError)
    (h₁ : hooks.applyHook t (g this) (args.map g) = .error e₁)
    (h₂ : hooks.constructHook ctor (cargs.map g) (g nt) = .error e₂)
    (hnt : nt ≠ .prim .undefined) :
    redProxyApplyTrap dist heap s hooks g t this args =
        .error (.red (normalizeBlueError s e₁)) ∧
    redProxyConstructTrap dist heap s hooks g ctor cargs nt =
        .error (.red (normalizeBlueError s e₂)) ∧
    (normalizeBlueError s e₁).message = e₁.message ∧
    (normalizeBlueError s e₂).message = e₂.message ∧
    (∀ e : BlueError,
      (∃ rc re, getRedRef s e.ctorId = some rc ∧
        constructRedError rc e.message = some re ∧
        normalizeBlueError s e = re) ∨
      normalizeBlueError s e = .generic e.message) ∧
    (∀ (hooks' : MarshalHooks) (be : BlueError),
      redProxyApplyTrap dist heap s hooks' g t this args ≠
        .error (.blue be)) ∧
    (∀ (hooks' : MarshalHooks) (nt' : RedValue) (be : BlueError),
      redProxyConstructTrap dist heap s hooks' g ctor cargs nt' ≠
        .error (.blue be)) := by
  refine ⟨?_, ?_, normalizeBlueError_message s e₁, normalizeBlueError_message s e₂,
    ?_, ?_, ?_⟩
  · simp [redProxyApplyTrap, h₁]
  · simp [redProxyConstructTrap, hnt, h₂]
  · intro e
    cases hr : getRedRef s e.ctorId with
    | none => right; simp [normalizeBlueError, hr]
    | some rc =>
      cases hc : constructRedError rc e.message with
      | none => right; simp [normalizeBlueError, hr, hc]
      | some re =>
        left; exact ⟨rc, re, rfl, hc, by simp [normalizeBlueError, hr, hc]⟩
  · intro hooks' be
    unfold redProxyApplyTrap
    cases hooks'.applyHook t (g this) (args.map g) with
    | ok v => simp
    | error e => simp
  · intro hooks' nt' be
    unfold redProxyConstructTrap
    by_cases hn : nt' = .prim .undefined
    · simp [hn]
    · cases hooks'.constructHook ctor (cargs.map g) (g nt') with
      | ok v => simp [hn]
      | error e => simp [hn]

def boundaryState : MState :=
  { blueMap := [(5, RedValue.native 7 true)], proxies := [], nextRedId := 0 }

def boundaryHooks : MarshalHooks :=
  { applyHook := fun _ _ _ => .error ⟨"x", 5⟩,
    constructHook := fun _ _ _ => .error ⟨"y", 9⟩ }

/-- Witness for C2: a blue RangeError-like failure (constructor registered at
blue id 5, red counterpart the native red constructor 7) surfaces as the red
error built from that counterpart with the same message; an unregistered
constructor falls back to the generic red error. -/
theorem errorBoundary_normalizes_witness :
    redProxyApplyTrap (fun _ => none) (fun _ => {}) boundaryState
        boundaryHooks (fun _ => .prim .null) ⟨0, true, false⟩ (.prim .null)
        [] = .error (.red (.fromCtor 7 "x")) ∧
    redProxyConstructTrap (fun _ => none) (fun _ => {}) boundaryState
        boundaryHooks (fun _ => .prim .null) ⟨0, true, false⟩ []
        (.prim .null) = .error (.red (.generic "y")) := by
  have h := errorBoundary_normalizes (fun _ => none) (fun _ => {})
    boundaryState boundaryHooks (fun _ => .prim .null) ⟨0, true, false⟩
    (.prim .null) [] ⟨0, true, false⟩ [] (.prim .null) ⟨"x", 5⟩ ⟨"y", 9⟩
    rfl rfl (by decide)
  exact ⟨h.1, h.2.1⟩

theorem getTargetMeta_broken (heap : Heap) (t : BlueRef)
    (hfail : t.revoked = true ∨ (heap t.id).protoThrows = true ∨
      (heap t.id).descThrows = true ∨ (heap t.id).classifyThrows = true ∨
      (heap t.id).probeThrows = true) :
    (getTargetMeta heap t).isBroken = true ∧
    (getTargetMeta heap t).proto = .prim .null ∧
    (getTargetMeta heap t).descriptors = [] := by
  unfold getTargetMeta
  by_cases h1 : t.revoked = true <;>
    by_cases h2 : (heap t.id).protoThrows = true <;>
    by_cases h3 : (heap t.id).descThrows = true <;>
    by_cases h4 : (heap t.id).classifyThrows = true <;>
    by_cases h5 : (heap t.id).probeThrows = true <;>
    simp_all

mutual
theorem getRedValue_proxies_mono (dist : Distortion) (heap : Heap) :
    ∀ (b : BlueValue) (s : MState) (pid : Nat) (info : ProxyInfo),
      pid < s.nextRedId → assocFind pid s.proxies = some info →
      pid < (getRedValue dist heap s b).2.nextRedId ∧
      assocFind pid (getRedValue dist heap s b).2.proxies = some info
  | .prim _, s, pid, info, hlt, hfind => by
    simpa [getRedValue] using ⟨hlt, hfind⟩
  | .ref t, s, pid, info, hlt, hfind => by
    have hcreate :
        pid < (createRedProxy dist heap s t).2.nextRedId ∧
        assocFind pid (createRedProxy dist heap s t).2.proxies = some info := by
      refine ⟨by simp [createRedProxy]; omega, ?_⟩
      simp [createRedProxy, assocFind, Nat.ne_of_gt hlt, hfind]
    cases hc : t.callable <;> cases hv : t.revoked <;>
      cases hf : assocFind t.id s.blueMap <;>
      simp [getRedValue, hc, hv, hf, hlt, hfind, hcreate]
  | .arr es, s, pid, info, hlt, hfind => by
    have h := getRedList_proxies_mono dist heap es s pid info hlt hfind
    simp [getRedValue]
    exact ⟨by omega, h.2⟩

theorem getRedList_proxies_mono (dist : Distortion) (heap : Heap) :
    ∀ (es : List BlueValue) (s : MState) (pid : Nat) (info : ProxyInfo),
      pid < s.nextRedId → assocFind pid s.proxies = some info →
      pid < (getRedList dist heap s es).2.nextRedId ∧
      assocFind pid (getRedList dist heap s es).2.proxies = some info
  | [], s, pid, info, hlt, hfind => by
    simpa [getRedList] using ⟨hlt, hfind⟩
  | b :: rest, s, pid, info, hlt, hfind => by
    have h1 := getRedValue_proxies_mono dist heap b s pid info hlt hfind
    have h2 := getRedList_proxies_mono dist heap rest
      (getRedValue dist heap s b).2 pid info h1.1 h1.2
    simpa [getRedList] using h2
end

/-- C4: if any step of metadata extraction fails on the (distorted) target —
the parent read, the attribute-map read, the lifecycle classification or the
final reachability probe — the extracted metadata is broken with null parent
and empty attributes, and the factory registers a proxy that is revoked
immediately, on which every operation fails, and which stays that way across
any later conversion activity. -/
theorem brokenTarget_revoked (dist : Distortion) (heap : Heap) (s : MState)
    (t : BlueRef)
    (hfail : (getDistortedValue dist t).revoked = true ∨
      (heap (getDistortedValue dist t).id).protoThrows = true ∨
      (heap (getDistortedValue dist t).id).descThrows = true ∨
      (heap (getDistortedValue dist t).id).classifyThrows = true ∨
      (heap (getDistortedValue dist t).id).probeThrows = true) :
    ((getTargetMeta heap (getDistortedValue dist t)).isBroken = true ∧
     (getTargetMeta heap (getDistortedValue dist t)).proto = .prim .null ∧
     (getTargetMeta heap (getDistortedValue dist t)).descriptors = []) ∧
    ((createRedProxy dist heap s t).1 = .proxy s.nextRedId ∧
     assocFind s.nextRedId (createRedProxy dist heap s t).2.proxies =
       some (revokedInfo (getDistortedValue dist t).id) ∧
     (∀ (α : Type) (f : Unit → α),
       proxyOperate (revokedInfo (getDistortedValue dist t).id) f =
         .error .typeErr) ∧
     (∀ b : BlueValue,
       assocFind s.nextRedId
           (getRedValue dist heap (createRedProxy dist heap s t).2 b).2.proxies =
         some (revokedInfo (getDistortedValue dist t).id))) := by
  have hmeta := getTargetMeta_broken heap (getDistortedValue dist t) hfail
  refine ⟨hmeta, rfl, ?_, ?_, ?_⟩
  · simp [createRedProxy, hmeta.1, assocFind]
  · intro α f
    simp [proxyOperate, revokedInfo]
  · intro b
    have hlt : s.nextRedId < (createRedProxy dist heap s t).2.nextRedId := by
      simp [createRedProxy]
    have hfind : assocFind s.nextRedId (createRedProxy dist heap s t).2.proxies =
        some (revokedInfo (getDistortedValue dist t).id) := by
      simp [createRedProxy, hmeta.1, assocFind]
    exact (getRedValue_proxies_mono dist heap b (createRedProxy dist heap s t).2
      s.nextRedId _ hlt hfind).2

/-- Witness for C4: a revoked blue target yields a broken meta and an
immediately revoked wrapper; any operation through the revocation gate
fails. -/
theorem brokenTarget_revoked_witness :
    (getTargetMeta (fun _ => ({} : BlueObjData)) ⟨0, false, true⟩).isBroken =
        true ∧
    (createRedProxy (fun _ => none) (fun _ => ({} : BlueObjData)) {}
        ⟨0, false, true⟩).1 = .proxy 0 ∧
    proxyOperate (revokedInfo 0) (fun _ => (0 : Nat)) = .error .typeErr := by
  have h := brokenTarget_revoked (fun _ => none) (fun _ => ({} : BlueObjData))
    {} ⟨0, false, true⟩ (Or.inl rfl)
  exact ⟨h.1.1, h.2.1, h.2.2.2.1 Nat (fun _ => 0)⟩

theorem shadowDefineRaw_extensible (sh : Shadow) (k : PKey)
    (d : Desc RedValue) :
    (shadowDefineRaw sh k d).extensible = sh.extensible := by
  cases h : assocFind k sh.props with
  | some e => simp only [shadowDefineRaw, h]; split_ifs <;> rfl
  | none => simp only [shadowDefineRaw, h]; split_ifs <;> rfl

theorem shadowDefineRaw_find_isSome (sh : Shadow) (k k' : PKey)
    (d : Desc RedValue) (hext : sh.extensible = true) :
    (assocFind k' (shadowDefineRaw sh k d).props).isSome ↔
      (k' = k ∨ (assocFind k' sh.props).isSome) := by
  cases h : assocFind k sh.props with
  | some e =>
    simp only [shadowDefineRaw, h]
    split_ifs with hc
    · simpa using assocFind_update_isSome k k' d sh.props
    · constructor
      · intro hs; right; exact hs
      · rintro (rfl | hs)
        · simp [h]
        · exact hs
  | none =>
    simp only [shadowDefineRaw, h, hext, if_true]
    simpa using assocFind_update_isSome k k' d sh.props

theorem copyBlueDescriptor_extensible (dist : Distortion) (heap : Heap)
    (s : MState) (sh : Shadow) (tid : Nat) (k : PKey) :
    (copyBlueDescriptorIntoShadowTarget dist heap s sh tid k).1.extensible =
      sh.extensible := by
  cases h : assocFind k (heap tid).props with
  | none => simp [copyBlueDescriptorIntoShadowTarget, h]
  | some bd =>
    simp [copyBlueDescriptorIntoShadowTarget, h, shadowDefineRaw_extensible]

theorem copyBlueDescriptor_find_isSome (dist : Distortion) (heap : Heap)
    (s : MState) (sh : Shadow) (tid : Nat) (k k' : PKey)
    (hext : sh.extensible = true) :
    (assocFind k'
        (copyBlueDescriptorIntoShadowTarget dist heap s sh tid k).1.props).isSome ↔
      ((k' = k ∧ (assocFind k (heap tid).props).isSome) ∨
        (assocFind k' sh.props).isSome) := by
  cases h : assocFind k (heap tid).props with
  | none => simp [copyBlueDescriptorIntoShadowTarget, h]
  | some bd =>
    simp [copyBlueDescriptorIntoShadowTarget, h,
      shadowDefineRaw_find_isSome _ _ _ _ hext]

theorem lockWalk_spec (dist : Distortion) (heap : Heap) (tid : Nat) :
    ∀ (keys : List PKey) (sh : Shadow) (s : MState), sh.extensible = true →
      ((keys.foldl (fun acc k =>
          copyBlueDescriptorIntoShadowTarget dist heap acc.2 acc.1 tid k)
          (sh, s)).1.extensible = true ∧
       ∀ k', (assocFind k' ((keys.foldl (fun acc k =>
          copyBlueDescriptorIntoShadowTarget dist heap acc.2 acc.1 tid k)
          (sh, s)).1.props)).isSome ↔
         ((k' ∈ keys ∧ (assocFind k' (heap tid).props).isSome) ∨
           (assocFind k' sh.props).isSome))
  | [], sh, s, hext => by
    refine ⟨hext, fun k' => ?_⟩
    simp
  | k :: keys, sh, s, hext => by
    have hse : (copyBlueDescriptorIntoShadowTarget dist heap s sh tid k).1.extensible = true := by
      rw [copyBlueDescriptor_extensible]; exact hext
    have IH := lockWalk_spec dist heap tid keys
      (copyBlueDescriptorIntoShadowTarget dist heap s sh tid k).1
      (copyBlueDescriptorIntoShadowTarget dist heap s sh tid k).2 hse
    constructor
    · exact IH.1
    · intro k'
      refine (IH.2 k').trans ?_
      constructor
      · rintro (⟨hm, ha⟩ | hb)
        · exact Or.inl ⟨List.mem_cons_of_mem _ hm, ha⟩
        · rcases (copyBlueDescriptor_find_isSome dist heap s sh tid k k'
              hext).mp hb with ⟨heq, ha⟩ | hb'
          · exact Or.inl ⟨List.mem_cons.mpr (Or.inl heq), heq.symm ▸ ha⟩
          · exact Or.inr hb'
      · rintro (⟨hm, ha⟩ | hb)
        · rcases List.mem_cons.mp hm with heq | hm'
          · exact Or.inr ((copyBlueDescriptor_find_isSome dist heap s sh tid
              k k' hext).mpr (Or.inl ⟨heq, heq ▸ ha⟩))
          · exact Or.inl ⟨hm', ha⟩
        · exact Or.inr ((copyBlueDescriptor_find_isSome dist heap s sh tid
            k k' hext).mpr (Or.inr hb))

theorem lockShadowTarget_spec (dist : Distortion) (heap : Heap) (s : MState)
    (sh : Shadow) (tid : Nat) (hext : sh.extensible = true) :
    (lockShadowTarget dist heap s sh tid).1.extensible = false ∧
    (∀ k, (assocFind k (lockShadowTarget dist heap s sh tid).1.props).isSome ↔
      ((assocFind k (heap tid).props).isSome ∨
        (assocFind k sh.props).isSome)) := by
  refine ⟨rfl, fun k => ?_⟩
  have h := (lockWalk_spec dist heap tid ((heap tid).props.map Prod.fst)
    sh s hext).2 k
  have hmem := assocFind_isSome_iff_mem k (heap tid).props
  show (assocFind k (((heap tid).props.map Prod.fst).foldl (fun acc k =>
      copyBlueDescriptorIntoShadowTarget dist heap acc.2 acc.1 tid k)
      (sh, s)).1.props).isSome ↔ _
  rw [h]
  constructor
  · rintro (⟨_, ha⟩ | hb)
    · exact Or.inl ha
    · exact Or.inr hb
  · rintro (ha | hb)
    · exact Or.inl ⟨hmem.mp ha, ha⟩
    · exact Or.inr hb

/-- C8: the dynamic extensibility query answers false from the shadow alone
once it is locked (for every heap); otherwise, on a non-extensible host it
returns false after installing a descriptor for every current own key of the
host and locking the shadow — so the locked shadow's own keys are the union
of its previous keys and the host's keys, and exactly the host's keys
whenever the shadow's keys were among them (as they always are, having been
installed from host descriptors) — and on an extensible host it returns true,
unchanged. -/
theorem dynIsExtensible_spec (dist : Distortion) (heap : Heap) (s : MState)
    (sh : Shadow) (tid : Nat) :
    (sh.extensible = false →
      ∀ heap2 : Heap, dynIsExtensible dist heap2 s sh tid = (false, sh, s)) ∧
    (sh.extensible = true → (heap tid).extensible = false →
      (dynIsExtensible dist heap s sh tid).1 = false ∧
      (dynIsExtensible dist heap s sh tid).2.1.extensible = false ∧
      (∀ k, (assocFind k (dynIsExtensible dist heap s sh tid).2.1.props).isSome ↔
        ((assocFind k (heap tid).props).isSome ∨
          (assocFind k sh.props).isSome)) ∧
      ((∀ k, (assocFind k sh.props).isSome →
          (assocFind k (heap tid).props).isSome) →
        ∀ k, (assocFind k (dynIsExtensible dist heap s sh tid).2.1.props).isSome ↔
          (assocFind k (heap tid).props).isSome)) ∧
    (sh.extensible = true → (heap tid).extensible = true →
      dynIsExtensible dist heap s sh tid = (true, sh, s)) := by
  refine ⟨?_, ?_, ?_⟩
  · intro hext heap2
    simp [dynIsExtensible, hext]
  · intro hext hte
    have hlock := lockShadowTarget_spec dist heap s sh tid hext
    have hred : dynIsExtensible dist heap s sh tid =
        (false, (lockShadowTarget dist heap s sh tid).1,
          (lockShadowTarget dist heap s sh tid).2) := by
      simp [dynIsExtensible, hext, hte]
    refine ⟨by rw [hred], by rw [hred]; exact hlock.1, ?_, ?_⟩
    · intro k
      rw [hred]
      exact hlock.2 k
    · intro hsub k
      rw [hred]
      rw [hlock.2 k]
      constructor
      · rintro (ha | hb)
        · exact ha
        · exact hsub k hb
      · exact Or.inl
  · intro hext hte
    simp [dynIsExtensible, hext, hte]

def lockHeap : Heap := fun _ =>
  { props := [(.s "y", .data (.prim (.num 1)) true true true)],
    extensible := false }

/-- Witness for C8 at a concrete non-extensible host with one own key and an
empty extensible shadow: the query reports false, locks the shadow, and the
shadow ends up with exactly the host's keys. -/
theorem dynIsExtensible_spec_witness :
    (dynIsExtensible (fun _ => none) lockHeap {} {} 0).1 = false ∧
    (dynIsExtensible (fun _ => none) lockHeap {} {} 0).2.1.extensible = false ∧
    ((assocFind (.s "y")
        (dynIsExtensible (fun _ => none) lockHeap {} {} 0).2.1.props).isSome ↔
      (assocFind (.s "y") (lockHeap 0).props).isSome) := by
  have h := (dynIsExtensible_spec (fun _ => none) lockHeap {} {} 0).2.1 rfl rfl
  exact ⟨h.1, h.2.1, h.2.2.2 (fun k hk => by simp [assocFind] at hk) (.s "y")⟩

theorem getRedValue_ref_live (dist : Distortion) (heap : Heap) (t : BlueRef)
    (hrev : t.revoked = false) (s : MState) :
    getRedValue dist heap s (.ref t) =
      (match assocFind t.id s.blueMap with
       | some r => (r, s)
       | none => createRedProxy dist heap s t) := by
  cases hc : t.callable <;> simp [getRedValue, hc, hrev]

/-- C1 (amended): for every live host object or function that the distortion
table does not remap to a different target, a repeated conversion returns the
identical registered wrapper, leaving the state unchanged. -/
theorem toGuestValue_stable (dist : Distortion) (heap : Heap) (s : MState)
    (t : BlueRef) (hlive : t.revoked = false)
    (hund : getDistortedValue dist t = t) :
    getRedValue dist heap (getRedValue dist heap s (.ref t)).2 (.ref t) =
      getRedValue dist heap s (.ref t) := by
  rw [getRedValue_ref_live dist heap t hlive s]
  cases hf : assocFind t.id s.blueMap with
  | some r =>
    rw [getRedValue_ref_live dist heap t hlive s, hf]
  | none =>
    rw [getRedValue_ref_live dist heap t hlive
      (createRedProxy dist heap s t).2]
    have hfind : assocFind t.id (createRedProxy dist heap s t).2.blueMap =
        some (createRedProxy dist heap s t).1 := by
      simp [createRedProxy, hund, assocFind]
    rw [hfind]

/-- Witness for C1 at a concrete live, undistorted host object: both
repetitions return the first wrapper. -/
theorem toGuestValue_stable_witness :
    getRedValue (fun _ => none) (fun _ => ({} : BlueObjData))
        (getRedValue (fun _ => none) (fun _ => ({} : BlueObjData)) {}
          (.ref ⟨0, false, false⟩)).2 (.ref ⟨0, false, false⟩) =
      getRedValue (fun _ => none) (fun _ => ({} : BlueObjData)) {}
        (.ref ⟨0, false, false⟩) :=
  toGuestValue_stable (fun _ => none) (fun _ => ({} : BlueObjData)) {}
    ⟨0, false, false⟩ rfl rfl

/-- C1 counterexample: a live, non-array host object that the distortion
table remaps to a different target is wrapped afresh on every conversion —
registration is keyed by the distorted target while the lookup uses the
original — so repetition does not return the identical wrapper. -/
theorem toGuestValue_unstable_cex :
    (getRedValue (fun n => if n = 0 then some ⟨1, false, false⟩ else none)
        (fun _ => ({} : BlueObjData))
        (getRedValue (fun n => if n = 0 then some ⟨1, false, false⟩ else none)
          (fun _ => ({} : BlueObjData)) {} (.ref ⟨0, false, false⟩)).2
        (.ref ⟨0, false, false⟩)).1 ≠
      (getRedValue (fun n => if n = 0 then some ⟨1, false, false⟩ else none)
        (fun _ => ({} : BlueObjData)) {} (.ref ⟨0, false, false⟩)).1 := by
  decide

mutual
theorem getRedValue_mapExt (dist : Distortion) (heap : Heap) :
    ∀ (b : BlueValue) (s : MState), liveUndistorted dist b = true →
      MapExt s (getRedValue dist heap s b).2
  | .prim _, s, _ => by simpa [getRedValue] using mapExt_refl s
  | .ref t, s, hl => by
    have hrev : t.revoked = false := by
      simp [liveUndistorted] at hl; exact hl.1
    have hund : getDistortedValue dist t = t := by
      simp [liveUndistorted] at hl; exact hl.2
    rw [getRedValue_ref_live dist heap t hrev s]
    cases hf : assocFind t.id s.blueMap with
    | some r => exact mapExt_refl s
    | none =>
      intro i r hir
      have hne : t.id ≠ i := by
        intro h
        rw [h] at hf
        rw [hf] at hir
        cases hir
      simp [createRedProxy, hund, assocFind, hne, hir]
  | .arr es, s, hl => by
    have h := getRedList_mapExt dist heap es s hl
    intro i r hir
    simpa [getRedValue] using h i r hir

theorem getRedList_mapExt (dist : Distortion) (heap : Heap) :
    ∀ (es : List BlueValue) (s : MState), liveUndistortedList dist es = true →
      MapExt s (getRedList dist heap s es).2
  | [], s, _ => by simpa [getRedList] using mapExt_refl s
  | b :: rest, s, hl => by
    have hb : liveUndistorted dist b = true := by
      simp [liveUndistortedList] at hl; exact hl.1
    have hr : liveUndistortedList dist rest = true := by
      simp [liveUndistortedList] at hl; exact hl.2
    have h1 := getRedValue_mapExt dist heap b s hb
    have h2 := getRedList_mapExt dist heap rest (getRedValue dist heap s b).2 hr
    intro i r hir
    simpa [getRedList] using h2 i r (h1 i r hir)
end

mutual
theorem getRedValue_nextId_mono (dist : Distortion) (heap : Heap) :
    ∀ (b : BlueValue) (s : MState),
      s.nextRedId ≤ (getRedValue dist heap s b).2.nextRedId
  | .prim _, s => by simp [getRedValue]
  | .ref t, s => by
    cases hc : t.callable <;> cases hv : t.revoked <;>
      cases hf : assocFind t.id s.blueMap <;>
      simp [getRedValue, hc, hv, hf, createRedProxy]
  | .arr es, s => by
    have h := getRedList_nextId_mono dist heap es s
    simp [getRedValue]
    omega

theorem getRedList_nextId_mono (dist : Distortion) (heap : Heap) :
    ∀ (es : List BlueValue) (s : MState),
      s.nextRedId ≤ (getRedList dist heap s es).2.nextRedId
  | [], s => by simp [getRedList]
  | b :: rest, s => by
    have h1 := getRedValue_nextId_mono dist heap b s
    have h2 := getRedList_nextId_mono dist heap rest (getRedValue dist heap s b).2
    simp [getRedList]
    omega
end

mutual
theorem getRedValue_stable_structEq (dist : Distortion) (heap : Heap) :
    ∀ (b : BlueValue) (s s2 : MState), liveUndistorted dist b = true →
      MapExt (getRedValue dist heap s b).2 s2 →
      structEq (getRedValue dist heap s b).1 (getRedValue dist heap s2 b).1 = true
  | .prim p, s, s2, _, _ => by simp [getRedValue, structEq]
  | .ref t, s, s2, hl, hext => by
    have hrev : t.revoked = false := by
      simp [liveUndistorted] at hl; exact hl.1
    have hund : getDistortedValue dist t = t := by
      simp [liveUndistorted] at hl; exact hl.2
    cases hf : assocFind t.id s.blueMap with
    | some r =>
      have h1 : getRedValue dist heap s (.ref t) = (r, s) := by
        rw [getRedValue_ref_live dist heap t hrev s, hf]
      have hext' : MapExt s s2 := by rw [h1] at hext; exact hext
      have h2 : assocFind t.id s2.blueMap = some r := hext' t.id r hf
      rw [h1, getRedValue_ref_live dist heap t hrev s2, h2]
      simpa using structEq_refl r
    | none =>
      have h1 : getRedValue dist heap s (.ref t) =
          createRedProxy dist heap s t := by
        rw [getRedValue_ref_live dist heap t hrev s, hf]
      have hext' : MapExt (createRedProxy dist heap s t).2 s2 := by
        rw [h1] at hext; exact hext
      have hfind : assocFind t.id (createRedProxy dist heap s t).2.blueMap =
          some (createRedProxy dist heap s t).1 := by
        simp [createRedProxy, hund, assocFind]
      have h2 := hext' t.id _ hfind
      rw [h1, getRedValue_ref_live dist heap t hrev s2, h2]
      simpa using structEq_refl (createRedProxy dist heap s t).1
  | .arr es, s, s2, hl, hext => by
    have hext' : MapExt (getRedList dist heap s es).2 s2 := by
      intro i r hir
      exact hext i r hir
    have h := getRedList_stable_structEq dist heap es s s2 hl hext'
    simpa [getRedValue, structEq] using h

theorem getRedList_stable_structEq (dist : Distortion) (heap : Heap) :
    ∀ (es : List BlueValue) (s s2 : MState),
      liveUndistortedList dist es = true →
      MapExt (getRedList dist heap s es).2 s2 →
      structEqList (getRedList dist heap s es).1
        (getRedList dist heap s2 es).1 = true
  | [], s, s2, _, _ => by simp [getRedList, structEqList]
  | b :: rest, s, s2, hl, hext => by
    have hb : liveUndistorted dist b = true := by
      simp [liveUndistortedList] at hl; exact hl.1
    have hr : liveUndistortedList dist rest = true := by
      simp [liveUndistortedList] at hl; exact hl.2
    have hext0 : MapExt
        (getRedList dist heap (getRedValue dist heap s b).2 rest).2 s2 := by
      intro i r hir
      exact hext i r hir
    have hextb : MapExt (getRedValue dist heap s b).2 s2 :=
      mapExt_trans
        (getRedList_mapExt dist heap rest (getRedValue dist heap s b).2 hr)
        hext0
    have h1 := getRedValue_stable_structEq dist heap b s s2 hb hextb
    have hext2 : MapExt
        (getRedList dist heap (getRedValue dist heap s b).2 rest).2
        (getRedValue dist heap s2 b).2 :=
      mapExt_trans hext0 (getRedValue_mapExt dist heap b s2 hb)
    have h2 := getRedList_stable_structEq dist heap rest
      (getRedValue dist heap s b).2 (getRedValue dist heap s2 b).2 hr hext2
    simp [getRedList, structEqList, h1, h2]
end

/-- C6 (amended): for every host array whose elements are (transitively)
primitives or live object/function references not remapped by the distortion
table, two conversions return guest sequences with distinct identities that
are element-wise structurally equal, and each is exactly the element-wise
guest conversion of the host elements. -/
theorem toGuestValue_array_fresh (dist : Distortion) (heap : Heap)
    (s : MState) (es : List BlueValue)
    (hlive : liveUndistortedList dist es = true) :
    (getRedValue dist heap s (.arr es)).1 ≠
      (getRedValue dist heap (getRedValue dist heap s (.arr es)).2
        (.arr es)).1 ∧
    structEq (getRedValue dist heap s (.arr es)).1
      (getRedValue dist heap (getRedValue dist heap s (.arr es)).2
        (.arr es)).1 = true ∧
    (getRedValue dist heap s (.arr es)).1 =
      .arr (getRedList dist heap s es).2.nextRedId
        (getRedList dist heap s es).1 ∧
    (getRedValue dist heap (getRedValue dist heap s (.arr es)).2 (.arr es)).1 =
      .arr (getRedList dist heap
          (getRedValue dist heap s (.arr es)).2 es).2.nextRedId
        (getRedList dist heap (getRedValue dist heap s (.arr es)).2 es).1 := by
  refine ⟨?_, ?_, rfl, rfl⟩
  · intro hEq
    have hmono := getRedList_nextId_mono dist heap es
      (getRedValue dist heap s (.arr es)).2
    have hids : (getRedList dist heap s es).2.nextRedId =
        (getRedList dist heap (getRedValue dist heap s (.arr es)).2
          es).2.nextRedId := by
      have hc := congrArg
        (fun v => match v with | RedValue.arr i _ => i | _ => 0) hEq
      simpa using hc
    have hsucc : (getRedValue dist heap s (.arr es)).2.nextRedId =
        (getRedList dist heap s es).2.nextRedId + 1 := rfl
    omega
  · exact getRedValue_stable_structEq dist heap (.arr es) s
      (getRedValue dist heap s (.arr es)).2 hlive
      (mapExt_refl (getRedValue dist heap s (.arr es)).2)

/-- Witness for C6 at a concrete live array of a primitive and an object. -/
theorem toGuestValue_array_fresh_witness :
    (getRedValue (fun _ => none) (fun _ => ({} : BlueObjData)) {}
        (.arr [.prim (.num 1), .ref ⟨0, false, false⟩])).1 ≠
      (getRedValue (fun _ => none) (fun _ => ({} : BlueObjData))
        (getRedValue (fun _ => none) (fun _ => ({} : BlueObjData)) {}
          (.arr [.prim (.num 1), .ref ⟨0, false, false⟩])).2
        (.arr [.prim (.num 1), .ref ⟨0, false, false⟩])).1 ∧
    structEq (getRedValue (fun _ => none) (fun _ => ({} : BlueObjData)) {}
        (.arr [.prim (.num 1), .ref ⟨0, false, false⟩])).1
      (getRedValue (fun _ => none) (fun _ => ({} : BlueObjData))
        (getRedValue (fun _ => none) (fun _ => ({} : BlueObjData)) {}
          (.arr [.prim (.num 1), .ref ⟨0, false, false⟩])).2
        (.arr [.prim (.num 1), .ref ⟨0, false, false⟩])).1 = true :=
  have h := toGuestValue_array_fresh (fun _ => none)
    (fun _ => ({} : BlueObjData)) {}
    [.prim (.num 1), .ref ⟨0, false, false⟩] (by decide)
  ⟨h.1, h.2.1⟩

/-- C6 counterexample: an array containing a revoked (non-live) object is
converted to guest sequences whose elements are fresh, distinct revoked
wrappers on every call, so the two results are not element-wise structurally
equal. -/
theorem toGuestValue_array_cex :
    structEq (getRedValue (fun _ => none) (fun _ => ({} : BlueObjData)) {}
        (.arr [.ref ⟨0, false, true⟩])).1
      (getRedValue (fun _ => none) (fun _ => ({} : BlueObjData))
        (getRedValue (fun _ => none) (fun _ => ({} : BlueObjData)) {}
          (.arr [.ref ⟨0, false, true⟩])).2
        (.arr [.ref ⟨0, false, true⟩])).1 = false := by
  decide

end NearMembrane
